import Mathlib

/-!
Verification of the runtime orchestration core of the mqtt-io gateway daemon
(file src/mqtt_io/server.py).

The code is shallowly embedded as pure Lean functions over an explicit effect
trace.  Each coroutine body is translated to a function producing the ordered
list of externally visible actions (hardware writes, outbound publishes, timed
sleeps, log records, task cancellations) it performs; awaiting a suspension
point corresponds to the position of the matching effect in the trace.  The
single-threaded cooperative scheduler means traces compose sequentially.

Modelling conventions, stated once here:
- machine strings are Lean `String` / `List Char`; topics are assumed free of
  newline characters so the dot of the topic-matching regular expression can
  be modelled as matching any character;
- the Python regular expression in `output_name_from_topic` is modelled by an
  explicit scanner (`nameScanGo`) proved below to implement the non-greedy
  group semantics: the group captures the shortest non-empty run of characters
  that is followed by a slash and at least one further character;
- `float(payload)` is modelled by `parseFloat?`, a decimal literal parser
  (optional sign, digits, optional fractional part) returning a rational; it
  covers the payloads the claims quantify over, and failure models the
  `ValueError` branch;
- a Python dict is modelled as an association list read with `List.lookup`;
  a missing key corresponds to the `HandlerResult.keyError` outcome, which
  models an uncaught `KeyError` exception propagating out of the handler;
- log text produced with `%`-formatting is reproduced up to the quoting that
  `%r` would add; no claim depends on exact log text, only on log level.
-/

/-- Topic suffix constant `SET_TOPIC` from server.py. -/
def SET_TOPIC : String := "set"

/-- Topic suffix constant `SET_ON_MS_TOPIC` from server.py. -/
def SET_ON_MS_TOPIC : String := "set_on_ms"

/-- Topic suffix constant `SET_OFF_MS_TOPIC` from server.py. -/
def SET_OFF_MS_TOPIC : String := "set_off_ms"

/-- Topic segment constant `OUTPUT_TOPIC` from server.py. -/
def OUTPUT_TOPIC : String := "output"

/-- Topic segment constant `SENSOR_TOPIC` from server.py. -/
def SENSOR_TOPIC : String := "sensor"

/-- One externally visible action of the daemon, in trace order. -/
inductive Effect where
  /-- `module.async_set_pin(pin, value)`: a hardware write. -/
  | setPin (module : String) (pin : ℕ) (value : Bool)
  /-- `module.setup_pin(pin, direction, ...)` during initialisation. -/
  | setupPin (module : String) (pin : ℕ) (direction : String)
  /-- `self.mqtt.publish(topic, payload, qos, retain)`: an outbound publish. -/
  | publish (topic : String) (payload : String) (qos : ℕ) (retain : Bool)
  /-- `self.event_bus.fire(SensorReadEvent(name, value))`. -/
  | fireSensorRead (sensor_name : String) (value : ℚ)
  /-- `await asyncio.sleep(seconds)`. -/
  | sleep (seconds : ℚ)
  /-- `_LOG.debug(...)`. -/
  | logDebug (msg : String)
  /-- `_LOG.info(...)`. -/
  | logInfo (msg : String)
  /-- `_LOG.warning(...)`. -/
  | logWarning (msg : String)
  /-- `_LOG.exception(...)`. -/
  | logException (msg : String)
  /-- `task.cancel()` on the named task. -/
  | cancelTask (name : String)
  /-- `await self.mqtt.disconnect()`. -/
  | disconnect
  /-- `self.loop.stop()`. -/
  | stopLoop
  deriving DecidableEq

/-- Whether an effect is observable on hardware, the wire, or the clock
(a hardware write, an outbound publish, or a timed suspension). -/
def isObs : Effect → Bool
  | .setPin _ _ _ => true
  | .publish _ _ _ _ => true
  | .sleep _ => true
  | _ => false

/-- Projection of a trace to its observable effects. -/
def obsOf (es : List Effect) : List Effect := es.filter isObs

/-- Projection of a trace to its hardware writes (module, pin, level). -/
def hardwareWritesOf (es : List Effect) : List (String × ℕ × Bool) :=
  es.filterMap fun e =>
    match e with
    | .setPin m p v => some (m, p, v)
    | _ => none

/-- Projection of a trace to its outbound publishes (topic, payload, qos, retain). -/
def publishesOf (es : List Effect) : List (String × String × ℕ × Bool) :=
  es.filterMap fun e =>
    match e with
    | .publish t p q r => some (t, p, q, r)
    | _ => none

/-- Projection of a trace to its fired sensor-read events. -/
def firesOf (es : List Effect) : List (String × ℚ) :=
  es.filterMap fun e =>
    match e with
    | .fireSensorRead n v => some (n, v)
    | _ => none

/-- Projection of a trace to its exception-log records. -/
def exceptionLogsOf (es : List Effect) : List String :=
  es.filterMap fun e =>
    match e with
    | .logException m => some m
    | _ => none

/-- Whether `pat` is a suffix of `s`; models the Python `str.endswith` test. -/
def endsList (s pat : List Char) : Bool :=
  if s.length < pat.length then false
  else s.drop (s.length - pat.length) == pat

/-- `topic.endswith(pat)` on strings. -/
def strEndsWith (s pat : String) : Bool := endsList s.data pat.data

/-- Whether `pat` is a leading segment of `s`. -/
def startsList (s pat : List Char) : Bool := s.take pat.length == pat

/-- Remove the leading segment `pat` from `s`, or fail. -/
def dropLead : List Char → List Char → Option (List Char)
  | [], s => some s
  | _ :: _, [] => none
  | p :: ps, c :: cs => if p = c then dropLead ps cs else none

/-- Scanner for the non-greedy regular-expression group: with accumulator
`acc` (the reversed characters committed to the group so far), succeed at the
first slash that still has at least one character after it. -/
def nameScanGo (acc : List Char) : List Char → Option (List Char)
  | [] => none
  | c :: cs => if c = '/' ∧ cs ≠ [] then some acc.reverse else nameScanGo (c :: acc) cs

/-- Capture of the group of the regular expression used by
`output_name_from_topic`: the shortest non-empty run of characters followed by
a slash and a non-empty remainder. -/
def nameScanStart : List Char → Option (List Char)
  | [] => none
  | c :: cs => nameScanGo [c] cs

/-- Model of `output_name_from_topic(topic, prefix)` from server.py: match the
anchored pattern built from the topic root, `OUTPUT_TOPIC` and a non-greedy
name group, returning the captured name or the `ValueError` message. -/
def output_name_from_topic (topic topicRoot : String) : Except String String :=
  match dropLead (topicRoot ++ "/" ++ OUTPUT_TOPIC ++ "/").data topic.data with
  | none => .error ("Topic " ++ topic ++ " does not adhere to expected structure")
  | some rest =>
    match nameScanStart rest with
    | none => .error ("Topic " ++ topic ++ " does not adhere to expected structure")
    | some nm => .ok (String.mk nm)

/-- Numeric value of a run of decimal digit characters. -/
def natFromDigits (ds : List Char) : ℕ :=
  ds.foldl (fun a c => a * 10 + (c.toNat - 48)) 0

/-- Parse an unsigned decimal literal (digits with an optional fractional
part) as a rational, or fail. -/
def parseUnsigned (cs : List Char) : Option ℚ :=
  let intPart := cs.takeWhile Char.isDigit
  let rest := cs.dropWhile Char.isDigit
  match rest with
  | [] => if intPart.isEmpty then none else some (natFromDigits intPart : ℚ)
  | '.' :: frac =>
    if frac.all Char.isDigit then
      if intPart.isEmpty && frac.isEmpty then none
      else some ((natFromDigits intPart : ℚ) + (natFromDigits frac : ℚ) / 10 ^ frac.length)
    else none
  | _ => none

/-- Model of Python `float(payload)` on decimal literals: `none` models the
`ValueError` branch of the code, `some d` a successfully parsed value. -/
def parseFloat? (s : String) : Option ℚ :=
  match s.data with
  | '-' :: cs => (parseUnsigned cs).map Neg.neg
  | '+' :: cs => parseUnsigned cs
  | cs => parseUnsigned cs

/-- One configured digital output (the fields of the validated config dict
that server.py reads). -/
structure DigitalOutputConfig where
  name : String
  module : String
  pin : ℕ
  inverted : Bool
  on_payload : String
  off_payload : String
  retain : Bool
  initial : String
  publish_initial : Bool
  deriving DecidableEq

/-- Model of the coroutine `set_digital_output(module, output_config, value)`:
one hardware write of `value != inverted` followed by an info log. -/
def set_digital_output (module : String) (output_config : DigitalOutputConfig)
    (value : Bool) : List Effect :=
  let set_value := value != output_config.inverted
  [.setPin module output_config.pin set_value,
   .logInfo ("Digital output " ++ output_config.name ++ " set to "
     ++ (if set_value then "True" else "False")
     ++ " (" ++ (if value then "on" else "off") ++ ")")]

/-- One entry of a per-module output queue: the tuple
`(module, output_config, payload)` enqueued by `_handle_mqtt_msg`. -/
structure OutputCommand where
  module : String
  output_config : DigitalOutputConfig
  payload : String
  deriving DecidableEq

/-- One iteration of `MqttGpio.digital_output_loop` on a dequeued command:
reject a payload equal to neither configured payload with a warning, else
write the pin and publish the confirmation with the configured retain flag. -/
def digital_output_loop_iter (topicRoot : String) (cmd : OutputCommand) : List Effect :=
  if cmd.payload ≠ cmd.output_config.on_payload ∧ cmd.payload ≠ cmd.output_config.off_payload then
    [.logWarning (cmd.payload ++ " is not a valid payload for output "
      ++ cmd.output_config.name ++ ". Only " ++ cmd.output_config.on_payload
      ++ " and " ++ cmd.output_config.off_payload ++ " are allowed.")]
  else
    set_digital_output cmd.module cmd.output_config (cmd.payload == cmd.output_config.on_payload)
    ++ [.publish (topicRoot ++ "/output/" ++ cmd.output_config.name) cmd.payload 1
          cmd.output_config.retain]

/-- The worker loop of `digital_output_loop` draining its queue in FIFO
order, one command at a time. -/
def digital_output_loop_run (topicRoot : String) (cmds : List OutputCommand) : List Effect :=
  (cmds.map (digital_output_loop_iter topicRoot)).flatten

/-- A scheduled `set_ms` pulse task: the output config, the desired first
level (`True` for the on-for-ms topic) and the raw payload it will parse. -/
structure PulseTask where
  output_config : DigitalOutputConfig
  desired_value : Bool
  payload : String
  deriving DecidableEq

/-- Execution trace of the inner coroutine `set_ms` of `_handle_mqtt_msg`:
parse the millisecond payload (warn and stop on failure), drive the output to
the desired level, publish the matching payload, sleep, then drive the output
to the opposite level and publish the opposite payload. -/
def set_ms_run (topicRoot : String) (output_config : DigitalOutputConfig)
    (desired_value : Bool) (payload : String) : List Effect :=
  match parseFloat? payload with
  | none => [.logWarning ("Unable to parse ms value as float from payload " ++ payload)]
  | some f =>
    let secs := f / 1000
    [.logInfo ("Turning output " ++ output_config.name ++ " "
       ++ (if desired_value then "on" else "off") ++ " for " ++ toString secs ++ " second(s)")]
    ++ set_digital_output output_config.module output_config desired_value
    ++ [.publish (topicRoot ++ "/output/" ++ output_config.name)
          (if desired_value then output_config.on_payload else output_config.off_payload)
          1 output_config.retain]
    ++ [.sleep secs]
    ++ [.logInfo ("Turning output " ++ output_config.name ++ " "
         ++ (if desired_value then "off" else "on") ++ " after " ++ toString secs
         ++ " second(s) elapsed")]
    ++ set_digital_output output_config.module output_config (!desired_value)
    ++ [.publish (topicRoot ++ "/output/" ++ output_config.name)
          (if desired_value then output_config.off_payload else output_config.on_payload)
          1 output_config.retain]

/-- The runtime state of `MqttGpio` that `_handle_mqtt_msg` reads: the topic
root, the output-config dict, the initialised gpio modules and the modules
owning an output queue. -/
structure ServerState where
  topic_root : String
  digital_output_configs : List (String × DigitalOutputConfig)
  gpio_modules : List String
  module_output_queues : List String
  deriving DecidableEq

/-- Outcome of `_handle_mqtt_msg`: a normal return carrying the logs emitted,
the commands enqueued and the pulse tasks scheduled, or an uncaught `KeyError`
on the given key propagating to the caller (`_mqtt_rx_loop`). -/
inductive HandlerResult where
  | ok (effects : List Effect) (enqueued : List (String × OutputCommand))
      (pulses : List PulseTask)
  | keyError (key : String)
  deriving DecidableEq

/-- Model of `MqttGpio._handle_mqtt_msg(topic, payload)`: ignore topics not
ending in a control suffix, warn and drop on a topic-parse failure, index the
config and module dicts (an absent key raises `KeyError`), then either enqueue
onto the owning module queue (set) or schedule a pulse task (set-for-ms). -/
def _handle_mqtt_msg (st : ServerState) (topic payload : String) : HandlerResult :=
  if !(strEndsWith topic ("/" ++ SET_TOPIC) || strEndsWith topic ("/" ++ SET_ON_MS_TOPIC)
       || strEndsWith topic ("/" ++ SET_OFF_MS_TOPIC)) then
    .ok [.logDebug ("Ignoring message to topic " ++ topic ++ " which does not end with /set etc.")]
      [] []
  else
    match output_name_from_topic topic st.topic_root with
    | .error e => .ok [.logWarning ("Unable to parse topic: " ++ e)] [] []
    | .ok output_name =>
      match List.lookup output_name st.digital_output_configs with
      | none => .keyError output_name
      | some output_config =>
        if output_config.module ∈ st.gpio_modules then
          if strEndsWith topic ("/" ++ SET_TOPIC) then
            if output_config.module ∈ st.module_output_queues then
              .ok [] [(output_config.module, ⟨output_config.module, output_config, payload⟩)] []
            else .keyError output_config.module
          else
            .ok [] [] [⟨output_config, strEndsWith topic ("/" ++ SET_ON_MS_TOPIC), payload⟩]
        else .keyError output_config.module

/-- The queue-creation fold of `MqttGpio._init_digital_outputs`: walking the
configured outputs in order, create a queue and a worker task for a module the
first time an output referencing it is seen.  First component: modules owning
a queue; second: one entry per created worker task. -/
def _init_digital_outputs_queues (cfgs : List DigitalOutputConfig) :
    List String × List String :=
  cfgs.foldl
    (fun st c =>
      if c.module ∈ st.1 then st else (st.1 ++ [c.module], st.2 ++ [c.module]))
    ([], [])

/-- Result of `MqttGpio._init_digital_outputs`: the config dict, the queue
owners, the worker tasks and the pin-setup effects. -/
structure OutputsInitResult where
  digital_output_configs : List (String × DigitalOutputConfig)
  module_output_queues : List String
  worker_tasks : List String
  effects : List Effect
  deriving DecidableEq

/-- Model of `MqttGpio._init_digital_outputs`: build the config dict, set up
each pin as an output, and lazily create one queue plus one worker per
referenced module. -/
def _init_digital_outputs (cfgs : List DigitalOutputConfig) : OutputsInitResult :=
  { digital_output_configs := cfgs.map fun x => (x.name, x)
    module_output_queues := (_init_digital_outputs_queues cfgs).1
    worker_tasks := (_init_digital_outputs_queues cfgs).2
    effects := cfgs.map fun c => .setupPin c.module c.pin "OUTPUT" }

/-- One configured sensor input (the fields of the validated config dict that
the sensor loop reads). -/
structure SensorInputConfig where
  name : String
  module : String
  interval : ℚ
  digits : ℕ
  deriving DecidableEq

/-- Round-half-to-even on rationals, the tie-breaking rule of Python `round`. -/
def roundHalfEven (q : ℚ) : ℤ :=
  let f := Rat.floor q
  let r := q - f
  if r < 1 / 2 then f
  else if 1 / 2 < r then f + 1
  else if f % 2 = 0 then f else f + 1

/-- Model of Python `round(value, ndigits)` on rationals. -/
def pyRound (v : ℚ) (nd : ℕ) : ℚ := (roundHalfEven (v * 10 ^ nd) : ℚ) / 10 ^ nd

/-- One iteration of the inner coroutine `poll_sensor` of
`_init_sensor_inputs`, given the value the capability module returned
(`none` models a module read yielding no reading): on a reading, round it,
log it and fire a `SensorReadEvent`; always sleep for the configured
interval and continue. -/
def poll_sensor_iter (sens_conf : SensorInputConfig) (reading : Option ℚ) : List Effect :=
  (match reading with
   | none => []
   | some v =>
     let value := pyRound v sens_conf.digits
     [.logInfo ("Read sensor " ++ sens_conf.name ++ " value of " ++ toString value),
      .fireSensorRead sens_conf.name value])
  ++ [.sleep sens_conf.interval]

/-- The `poll_sensor` loop over a list of successive module readings. -/
def poll_sensor_run (sens_conf : SensorInputConfig) (readings : List (Option ℚ)) :
    List Effect :=
  (readings.map (poll_sensor_iter sens_conf)).flatten

/-- The event-bus subscriber `publish_sensor_callback` of
`_init_sensor_inputs`: publish the stringified value on the sensor topic. -/
def publish_sensor_callback (topicRoot sensor_name : String) (value : ℚ) : List Effect :=
  [.publish (topicRoot ++ "/" ++ SENSOR_TOPIC ++ "/" ++ sensor_name) (toString value) 0 false]

/-- Expansion of a fired event into the effects of its event-bus subscriber:
a `SensorReadEvent` triggers `publish_sensor_callback`, every other effect is
left unchanged. -/
def expandSensorBus (topicRoot : String) (e : Effect) : List Effect :=
  match e with
  | .fireSensorRead n v => .fireSensorRead n v :: publish_sensor_callback topicRoot n v
  | e => [e]

/-- One `poll_sensor` iteration with its fired events expanded into the
publishes of the event-bus subscriber. -/
def poll_sensor_iter_bus (topicRoot : String) (sens_conf : SensorInputConfig)
    (reading : Option ℚ) : List Effect :=
  ((poll_sensor_iter sens_conf reading).map (expandSensorBus topicRoot)).flatten

/-- A task tracked in `self.unawaited_tasks`: its name, whether it has
finished, and (when finished) the exception it finished with, if any. -/
structure TrackedTask where
  name : String
  done : Bool
  err : Option String
  deriving DecidableEq

/-- Model of `await task` on a finished task: re-raises the exception the
task finished with, if any. -/
def await_task (t : TrackedTask) : Except String Unit :=
  match t.err with
  | some e => .error e
  | none => .ok ()

/-- The per-task try/except block of `_remove_finished_tasks`: awaiting a
finished task re-raises its exception, which is caught and logged; a clean
task produces nothing. -/
def reap_finished (t : TrackedTask) : List Effect :=
  match await_task t with
  | .error _ => [.logException ("Exception in task: " ++ t.name)]
  | .ok _ => []

/-- One pass of the periodic reaper `MqttGpio._remove_finished_tasks`:
sleep one unit, collect the finished tasks, log each one that finished with
an exception, and keep only the unfinished tasks. -/
def _remove_finished_tasks_pass (ts : List TrackedTask) :
    List Effect × List TrackedTask :=
  let finished := ts.filter (·.done)
  if finished.isEmpty then ([.sleep 1], ts)
  else (.sleep 1 :: (finished.map reap_finished).flatten, ts.filter fun t => !t.done)

/-- The reaper loop iterated a given number of passes over an evolving
tracked-task list. -/
def _remove_finished_tasks_run : ℕ → List TrackedTask → List Effect × List TrackedTask
  | 0, ts => ([], ts)
  | n + 1, ts =>
    let p := _remove_finished_tasks_pass ts
    let r := _remove_finished_tasks_run n p.2
    (p.1 ++ r.1, r.2)

/-- A task as seen by the shutdown coordinator: its name, the effects of the
finaliser that runs when the pending task is cancelled and unwinds at its
next suspension point, and whether it is already done. -/
structure STask where
  name : String
  final : List Effect
  done : Bool
  deriving DecidableEq

/-- Effects of cancelling a task: a pending task unwinds and runs its
finaliser to completion; a task already done does nothing. -/
def cancel_effects (t : STask) : List Effect := if t.done then [] else t.final

/-- The `finally` block of `MqttGpio._mqtt_rx_loop`: publish the retained
stopped status payload and disconnect, guaranteed to run on cancellation. -/
def mqtt_rx_loop_finalizer (topicRoot statusTopic stoppedPayload : String) : List Effect :=
  [.publish (topicRoot ++ "/" ++ statusTopic) stoppedPayload 1 true,
   .logInfo "Disconnecting from MQTT...",
   .disconnect,
   .logInfo "MQTT disconnected"]

/-- The primary tasks registered in `self.tasks` by `MqttGpio.run`: the
receive loop (with its status finaliser) and the task reaper (no finaliser). -/
def primary_tasks (topicRoot statusTopic stoppedPayload : String) : List STask :=
  [⟨"_mqtt_rx_loop", mqtt_rx_loop_finalizer topicRoot statusTopic stoppedPayload, false⟩,
   ⟨"_remove_finished_tasks", [], false⟩]

/-- Model of `MqttGpio.shutdown(signal)` under the cooperative scheduler:
cancel the primary tasks and poll until done (their finalisers run during the
first poll sleep, in creation order), then enumerate the still-pending other
tracked tasks (the shutdown task itself is excluded by construction of
`others`), cancel them, poll until done, and stop the loop.  Returns the
trace and the post-shutdown task states. -/
def shutdown_run (sigName : String) (primary others : List STask) :
    List Effect × List STask :=
  let pending := others.filter fun t => !t.done
  ([Effect.logWarning ("Received exit signal " ++ sigName)]
     ++ primary.map (fun t => Effect.cancelTask t.name)
     ++ [Effect.logInfo "Waiting for main task to complete..."]
     ++ (primary.map cancel_effects).flatten
     ++ [Effect.logInfo ("Cancelling " ++ toString pending.length ++ " remaining tasks")]
     ++ pending.map (fun t => Effect.cancelTask t.name)
     ++ [Effect.logInfo ("Waiting for " ++ toString pending.length
          ++ " remaining tasks to complete...")]
     ++ (pending.map cancel_effects).flatten
     ++ [Effect.logDebug "Tasks all finished. Stopping loop...", Effect.stopLoop,
         Effect.logDebug "Loop stopped"],
   (primary ++ others).map fun t => { t with done := true })

theorem str_data_append (a b : String) : (a ++ b).data = a.data ++ b.data := rfl

theorem string_mk_data (s : String) : String.mk s.data = s := rfl

theorem string_ne_empty_iff_data (s : String) : s ≠ "" ↔ s.data ≠ [] := by
  constructor
  · intro h hd
    exact h (by cases s with
      | mk d => simp at hd; simp [hd])
  · intro h he
    exact h (by simp [he])

theorem endsList_append_self (x p : List Char) : endsList (x ++ p) p = true := by
  unfold endsList
  have hlen : (x ++ p).length = x.length + p.length := List.length_append x p
  have hnlt : ¬ (x ++ p).length < p.length := by omega
  rw [if_neg hnlt]
  have hsub : (x ++ p).length - p.length = x.length := by omega
  rw [hsub, List.drop_left]
  simp

theorem drop_add_append (x a : List Char) (k : ℕ) :
    (x ++ a).drop (x.length + k) = a.drop k := by
  induction x with
  | nil => simp
  | cons c cs ih => simp [Nat.succ_add, ih]

theorem endsList_append_of_le (x a p : List Char) (h : p.length ≤ a.length) :
    endsList (x ++ a) p = endsList a p := by
  unfold endsList
  have hlen : (x ++ a).length = x.length + a.length := List.length_append x a
  have h1 : ¬ (x ++ a).length < p.length := by omega
  have h2 : ¬ a.length < p.length := by omega
  rw [if_neg h1, if_neg h2]
  have hsub : (x ++ a).length - p.length = x.length + (a.length - p.length) := by omega
  rw [hsub, drop_add_append]

theorem dropLead_append (p r : List Char) : dropLead p (p ++ r) = some r := by
  induction p with
  | nil => rfl
  | cons c cs ih => simp [dropLead, ih]

theorem dropLead_eq_some (p s r : List Char) (h : dropLead p s = some r) :
    s = p ++ r := by
  induction p generalizing s with
  | nil => simpa [dropLead] using h
  | cons c cs ih =>
    cases s with
    | nil => simp [dropLead] at h
    | cons d ds =>
      by_cases hc : c = d
      · subst hc
        simp [dropLead] at h
        simpa using ih ds h
      · simp [dropLead, hc] at h

theorem startsList_of_dropLead (p s r : List Char) (h : dropLead p s = some r) :
    startsList s p = true := by
  have := dropLead_eq_some p s r h
  subst this
  unfold startsList
  rw [List.take_left]
  simp

theorem dropLead_of_startsList_false (p s : List Char) (h : startsList s p = false) :
    dropLead p s = none := by
  cases hd : dropLead p s with
  | none => rfl
  | some r =>
    have := startsList_of_dropLead p s r hd
    rw [this] at h
    exact absurd h (by simp)

theorem nameScanGo_none (rest : List Char) :
    ∀ acc, '/' ∉ rest → nameScanGo acc rest = none := by
  induction rest with
  | nil => intro acc _; rfl
  | cons c cs ih =>
    intro acc h
    have hc : c ≠ '/' := fun he => h (by simp [he])
    have hcs : '/' ∉ cs := fun hm => h (by simp [hm])
    have : ¬ (c = '/' ∧ cs ≠ []) := fun hx => hc hx.1
    simp only [nameScanGo, if_neg this]
    exact ih _ hcs

theorem nameScanGo_split (mid : List Char) :
    ∀ acc c cs, '/' ∉ mid →
      nameScanGo acc (mid ++ '/' :: c :: cs) = some (acc.reverse ++ mid) := by
  induction mid with
  | nil =>
    intro acc c cs _
    simp [nameScanGo]
  | cons b bs ih =>
    intro acc c cs h
    have hb : b ≠ '/' := fun he => h (by simp [he])
    have hbs : '/' ∉ bs := fun hm => h (by simp [hm])
    have hng : ¬ (b = '/' ∧ bs ++ '/' :: c :: cs ≠ []) := fun hx => hb hx.1
    simp only [List.cons_append, nameScanGo, List.append_eq]
    rw [if_neg hng, ih _ c cs hbs]
    simp

theorem nameScanStart_split (nm : List Char) (c : Char) (cs : List Char)
    (hne : nm ≠ []) (hsl : '/' ∉ nm) :
    nameScanStart (nm ++ '/' :: c :: cs) = some nm := by
  cases nm with
  | nil => exact absurd rfl hne
  | cons a mid =>
    have ha : '/' ∉ mid := fun hm => hsl (by simp [hm])
    simp only [List.cons_append, nameScanStart]
    rw [nameScanGo_split mid [a] c cs ha]
    simp

theorem nameScanStart_none (s : List Char) (h : '/' ∉ s) : nameScanStart s = none := by
  cases s with
  | nil => rfl
  | cons c cs =>
    have : '/' ∉ cs := fun hm => h (by simp [hm])
    simp only [nameScanStart]
    exact nameScanGo_none cs [c] this

theorem out_root_data (tp : String) :
    (tp ++ "/" ++ OUTPUT_TOPIC ++ "/").data = tp.data ++ ("/output/" : String).data := by
  simp only [str_data_append, OUTPUT_TOPIC, List.append_assoc]
  rfl

theorem output_name_parse_ok (tp nm sfx : String)
    (hne : nm.data ≠ []) (hsl : '/' ∉ nm.data)
    (c : Char) (cs : List Char) (hsf : sfx.data = '/' :: c :: cs) :
    output_name_from_topic (tp ++ "/output/" ++ nm ++ sfx) tp = .ok nm := by
  unfold output_name_from_topic
  have hdata : (tp ++ "/output/" ++ nm ++ sfx).data
      = (tp.data ++ ("/output/" : String).data) ++ (nm.data ++ sfx.data) := by
    simp [str_data_append, List.append_assoc]
  rw [hdata, out_root_data, dropLead_append, hsf]
  simp [nameScanStart_split nm.data c cs hne hsl, string_mk_data]

theorem sfx_set_data : ("/" ++ SET_TOPIC : String).data = ['/', 's', 'e', 't'] := rfl

theorem sfx_on_data : ("/" ++ SET_ON_MS_TOPIC : String).data
    = ['/', 's', 'e', 't', '_', 'o', 'n', '_', 'm', 's'] := rfl

theorem sfx_off_data : ("/" ++ SET_OFF_MS_TOPIC : String).data
    = ['/', 's', 'e', 't', '_', 'o', 'f', 'f', '_', 'm', 's'] := rfl

theorem endsWith_set_self (x : String) :
    strEndsWith (x ++ "/set") ("/" ++ SET_TOPIC) = true := by
  unfold strEndsWith
  rw [str_data_append, sfx_set_data]
  exact endsList_append_self x.data ['/', 's', 'e', 't']

theorem endsWith_on_self (x : String) :
    strEndsWith (x ++ "/set_on_ms") ("/" ++ SET_ON_MS_TOPIC) = true := by
  unfold strEndsWith
  rw [str_data_append, sfx_on_data]
  exact endsList_append_self x.data _

theorem endsWith_off_self (x : String) :
    strEndsWith (x ++ "/set_off_ms") ("/" ++ SET_OFF_MS_TOPIC) = true := by
  unfold strEndsWith
  rw [str_data_append, sfx_off_data]
  exact endsList_append_self x.data _

theorem on_not_endsWith_set (x : String) :
    strEndsWith (x ++ "/set_on_ms") ("/" ++ SET_TOPIC) = false := by
  unfold strEndsWith
  rw [str_data_append, sfx_set_data, endsList_append_of_le _ _ _ (by decide)]
  decide

theorem off_not_endsWith_set (x : String) :
    strEndsWith (x ++ "/set_off_ms") ("/" ++ SET_TOPIC) = false := by
  unfold strEndsWith
  rw [str_data_append, sfx_set_data, endsList_append_of_le _ _ _ (by decide)]
  decide

theorem off_not_endsWith_on (x : String) :
    strEndsWith (x ++ "/set_off_ms") ("/" ++ SET_ON_MS_TOPIC) = false := by
  unfold strEndsWith
  rw [str_data_append, sfx_on_data, endsList_append_of_le _ _ _ (by decide)]
  decide

/-- Example output config used to instantiate hypothesis-bearing theorems. -/
def exCfg : DigitalOutputConfig :=
  ⟨"relay1", "mod1", 5, false, "ON", "OFF", true, "low", false⟩

/-- Example server state with one configured output on one module. -/
def exSt : ServerState := ⟨"P", [("relay1", exCfg)], ["mod1"], ["mod1"]⟩

/-- Example server state with no configured outputs. -/
def exStEmpty : ServerState := ⟨"P", [], [], []⟩

/-- Whether `_handle_mqtt_msg` returned normally rather than raising. -/
def handledWithoutException : HandlerResult → Bool
  | .ok _ _ _ => true
  | .keyError _ => false

/-- Claim C6: `output_name_from_topic` applied to `P/output/relay1/set` with
topic root `P` returns `relay1`; a topic that does not start with the
root-plus-output lead raises the `ValueError`, and a topic whose remainder
after the lead has no further slash (no name segment followed by a suffix
segment) raises the `ValueError`. -/
theorem claim_C6_output_name_from_topic :
    (output_name_from_topic "P/output/relay1/set" "P" = .ok "relay1")
    ∧ (∀ (topic tp : String),
        startsList topic.data (tp ++ "/" ++ OUTPUT_TOPIC ++ "/").data = false →
        ∃ e, output_name_from_topic topic tp = .error e)
    ∧ (∀ (tp s : String), '/' ∉ s.data →
        ∃ e, output_name_from_topic (tp ++ "/output/" ++ s) tp = .error e) := by
  refine ⟨by rfl, ?_, ?_⟩
  · intro topic tp h
    unfold output_name_from_topic
    rw [dropLead_of_startsList_false _ _ h]
    exact ⟨_, rfl⟩
  · intro tp s h
    unfold output_name_from_topic
    have hdata : (tp ++ "/output/" ++ s).data
        = (tp.data ++ ("/output/" : String).data) ++ s.data := by
      simp [str_data_append, List.append_assoc]
    rw [hdata, out_root_data, dropLead_append]
    dsimp only
    rw [nameScanStart_none s.data h]
    exact ⟨_, rfl⟩

/-- Witness for claim C6: a wrong-root topic and a topic with no name segment
are both rejected. -/
theorem claim_C6_output_name_from_topic_witness :
    (∃ e, output_name_from_topic "Q/output/a/set" "P" = .error e)
    ∧ (∃ e, output_name_from_topic ("P" ++ "/output/" ++ "set") "P" = .error e) :=
  ⟨claim_C6_output_name_from_topic.2.1 "Q/output/a/set" "P" (by decide),
   claim_C6_output_name_from_topic.2.2 "P" "set" (by decide)⟩

/-- Claim C1, counterexample: the claim says every malformed request on a
control-suffix topic, including a name that does not resolve to a configured
output, is warning-logged and dropped and never propagates an exception out
of the message handler.  On the concrete topic `P/output/nope/set` with no
output named `nope` configured, `_handle_mqtt_msg` instead raises an uncaught
`KeyError` that propagates to the receive loop. -/
theorem claim_C1_counterexample :
    handledWithoutException (_handle_mqtt_msg exStEmpty "P/output/nope/set" "ON") = false
    ∧ _handle_mqtt_msg exStEmpty "P/output/nope/set" "ON" = .keyError "nope" := by
  exact ⟨by decide, by decide⟩

/-- Claim C1 (amended): for inbound messages on control-suffix topics, a
topic whose shape the parser rejects is warning-logged and dropped with no
enqueue, no scheduled task and no exception; a set command whose payload is
invalid is warning-logged by the worker with no hardware write and no
publish; an unparsable duration is warning-logged by the pulse task with no
hardware write and no publish; but a parsed name that does not resolve to a
configured output raises an uncaught `KeyError` that propagates out of the
message handler to the receive loop. -/
theorem claim_C1_amended :
    ∀ (st : ServerState) (topic payload e nm : String),
      ((strEndsWith topic ("/" ++ SET_TOPIC) || strEndsWith topic ("/" ++ SET_ON_MS_TOPIC)
          || strEndsWith topic ("/" ++ SET_OFF_MS_TOPIC)) = true →
        output_name_from_topic topic st.topic_root = .error e →
        _handle_mqtt_msg st topic payload
          = .ok [.logWarning ("Unable to parse topic: " ++ e)] [] [])
      ∧ (∀ cmd : OutputCommand,
          cmd.payload ≠ cmd.output_config.on_payload →
          cmd.payload ≠ cmd.output_config.off_payload →
          (∃ m, digital_output_loop_iter st.topic_root cmd = [.logWarning m])
          ∧ obsOf (digital_output_loop_iter st.topic_root cmd) = [])
      ∧ (∀ (oc : DigitalOutputConfig) (dv : Bool),
          parseFloat? payload = none →
          ∃ m, set_ms_run st.topic_root oc dv payload = [.logWarning m])
      ∧ ((strEndsWith topic ("/" ++ SET_TOPIC) || strEndsWith topic ("/" ++ SET_ON_MS_TOPIC)
          || strEndsWith topic ("/" ++ SET_OFF_MS_TOPIC)) = true →
        output_name_from_topic topic st.topic_root = .ok nm →
        List.lookup nm st.digital_output_configs = none →
        _handle_mqtt_msg st topic payload = .keyError nm) := by
  intro st topic payload e nm
  refine ⟨?_, ?_, ?_, ?_⟩
  · intro h1 h2
    simp [_handle_mqtt_msg, h1, h2]
  · intro cmd h1 h2
    constructor
    · exact ⟨cmd.payload ++ " is not a valid payload for output "
        ++ cmd.output_config.name ++ ". Only " ++ cmd.output_config.on_payload
        ++ " and " ++ cmd.output_config.off_payload ++ " are allowed.",
        by unfold digital_output_loop_iter; rw [if_pos ⟨h1, h2⟩]⟩
    · unfold obsOf digital_output_loop_iter
      rw [if_pos ⟨h1, h2⟩]
      rfl
  · intro oc dv h
    exact ⟨"Unable to parse ms value as float from payload " ++ payload,
      by unfold set_ms_run; rw [h]⟩
  · intro h1 h2 h3
    simp [_handle_mqtt_msg, h1, h2, h3]

/-- Witness for the amended claim C1 at concrete inputs: a malformed topic is
warning-logged and dropped, an invalid set payload and an unparsable duration
are warning-logged with no observable effect, and an unknown output name
raises `KeyError`. -/
theorem claim_C1_amended_witness :
    (_handle_mqtt_msg exStEmpty "X/output/a/set" "ON"
      = .ok [.logWarning ("Unable to parse topic: "
          ++ "Topic X/output/a/set does not adhere to expected structure")] [] [])
    ∧ ((∃ m, digital_output_loop_iter exStEmpty.topic_root ⟨"mod1", exCfg, "BAD"⟩
          = [.logWarning m])
        ∧ obsOf (digital_output_loop_iter exStEmpty.topic_root ⟨"mod1", exCfg, "BAD"⟩) = [])
    ∧ (∃ m, set_ms_run exStEmpty.topic_root exCfg true "ON" = [.logWarning m])
    ∧ _handle_mqtt_msg exStEmpty "P/output/nope/set" "ON" = .keyError "nope" := by
  refine ⟨?_, ?_, ?_, ?_⟩
  · exact (claim_C1_amended exStEmpty "X/output/a/set" "ON"
      "Topic X/output/a/set does not adhere to expected structure" "nope").1
      (by decide) (by rfl)
  · exact (claim_C1_amended exStEmpty "X/output/a/set" "ON" "" "nope").2.1
      ⟨"mod1", exCfg, "BAD"⟩ (by decide) (by decide)
  · exact (claim_C1_amended exStEmpty "X/output/a/set" "ON" "" "nope").2.2.1
      exCfg true (by decide)
  · exact (claim_C1_amended exStEmpty "P/output/nope/set" "ON" "" "nope").2.2.2
      (by decide) (by rfl) (by rfl)

/-- Claim C2: for a configured output and an inbound message on its set topic
whose payload equals the configured on-payload, the handler enqueues exactly
one command onto the owning module queue, and the worker iteration on that
command performs exactly one hardware write of the on level (the requested
value XORed with the inverted flag) followed by exactly one publish on the
output topic echoing the payload with the configured retain flag. -/
theorem claim_C2_set_on_payload :
    ∀ (st : ServerState) (nm : String) (cfg : DigitalOutputConfig),
      nm ≠ "" → '/' ∉ nm.data →
      List.lookup nm st.digital_output_configs = some cfg →
      cfg.module ∈ st.gpio_modules →
      cfg.module ∈ st.module_output_queues →
      (_handle_mqtt_msg st (st.topic_root ++ "/output/" ++ nm ++ "/set") cfg.on_payload
        = .ok [] [(cfg.module, ⟨cfg.module, cfg, cfg.on_payload⟩)] [])
      ∧ obsOf (digital_output_loop_iter st.topic_root ⟨cfg.module, cfg, cfg.on_payload⟩)
          = [.setPin cfg.module cfg.pin (true != cfg.inverted),
             .publish (st.topic_root ++ "/output/" ++ cfg.name) cfg.on_payload 1 cfg.retain]
      ∧ hardwareWritesOf (digital_output_loop_iter st.topic_root ⟨cfg.module, cfg, cfg.on_payload⟩)
          = [(cfg.module, cfg.pin, true != cfg.inverted)]
      ∧ publishesOf (digital_output_loop_iter st.topic_root ⟨cfg.module, cfg, cfg.on_payload⟩)
          = [(st.topic_root ++ "/output/" ++ cfg.name, cfg.on_payload, 1, cfg.retain)] := by
  intro st nm cfg hne hsl hlk hmod hq
  have e1 : strEndsWith (st.topic_root ++ "/output/" ++ nm ++ "/set") ("/" ++ SET_TOPIC)
      = true := endsWith_set_self _
  have hp : output_name_from_topic (st.topic_root ++ "/output/" ++ nm ++ "/set") st.topic_root
      = .ok nm :=
    output_name_parse_ok st.topic_root nm "/set" ((string_ne_empty_iff_data nm).1 hne) hsl
      's' ['e', 't'] rfl
  have hvalid : ¬ (cfg.on_payload ≠ cfg.on_payload ∧ cfg.on_payload ≠ cfg.off_payload) :=
    fun h => h.1 rfl
  refine ⟨?_, ?_, ?_, ?_⟩
  · simp [_handle_mqtt_msg, e1, hp, hlk, hmod, hq]
  · simp [obsOf, digital_output_loop_iter, if_neg hvalid, set_digital_output, isObs]
  · simp [hardwareWritesOf, digital_output_loop_iter, if_neg hvalid, set_digital_output]
  · simp [publishesOf, digital_output_loop_iter, if_neg hvalid, set_digital_output]

/-- Witness for claim C2 on the example state: the message `ON` on
`P/output/relay1/set` is enqueued and the worker writes the pin once and
publishes once. -/
theorem claim_C2_set_on_payload_witness :
    (_handle_mqtt_msg exSt (exSt.topic_root ++ "/output/" ++ "relay1" ++ "/set")
        exCfg.on_payload
      = .ok [] [(exCfg.module, ⟨exCfg.module, exCfg, exCfg.on_payload⟩)] [])
    ∧ obsOf (digital_output_loop_iter exSt.topic_root ⟨exCfg.module, exCfg, exCfg.on_payload⟩)
        = [.setPin exCfg.module exCfg.pin (true != exCfg.inverted),
           .publish (exSt.topic_root ++ "/output/" ++ exCfg.name) exCfg.on_payload 1
             exCfg.retain]
    ∧ hardwareWritesOf (digital_output_loop_iter exSt.topic_root
        ⟨exCfg.module, exCfg, exCfg.on_payload⟩)
        = [(exCfg.module, exCfg.pin, true != exCfg.inverted)]
    ∧ publishesOf (digital_output_loop_iter exSt.topic_root
        ⟨exCfg.module, exCfg, exCfg.on_payload⟩)
        = [(exSt.topic_root ++ "/output/" ++ exCfg.name, exCfg.on_payload, 1, exCfg.retain)] :=
  claim_C2_set_on_payload exSt "relay1" exCfg (by decide) (by decide) (by rfl)
    (by decide) (by decide)

/-- Claim C3: a dequeued set command whose payload equals neither configured
payload is warning-logged and has no effect (no hardware write, no publish),
and the worker proceeds to the next command. -/
theorem claim_C3_invalid_payload_rejected :
    ∀ (tp : String) (cmd : OutputCommand) (rest : List OutputCommand),
      cmd.payload ≠ cmd.output_config.on_payload →
      cmd.payload ≠ cmd.output_config.off_payload →
      (∃ m, digital_output_loop_iter tp cmd = [.logWarning m])
      ∧ obsOf (digital_output_loop_iter tp cmd) = []
      ∧ hardwareWritesOf (digital_output_loop_iter tp cmd) = []
      ∧ publishesOf (digital_output_loop_iter tp cmd) = []
      ∧ digital_output_loop_run tp (cmd :: rest)
          = digital_output_loop_iter tp cmd ++ digital_output_loop_run tp rest := by
  intro tp cmd rest h1 h2
  refine ⟨?_, ?_, ?_, ?_, ?_⟩
  · exact ⟨cmd.payload ++ " is not a valid payload for output "
      ++ cmd.output_config.name ++ ". Only " ++ cmd.output_config.on_payload
      ++ " and " ++ cmd.output_config.off_payload ++ " are allowed.",
      by unfold digital_output_loop_iter; rw [if_pos ⟨h1, h2⟩]⟩
  · unfold obsOf digital_output_loop_iter
    rw [if_pos ⟨h1, h2⟩]
    rfl
  · unfold hardwareWritesOf digital_output_loop_iter
    rw [if_pos ⟨h1, h2⟩]
    rfl
  · unfold publishesOf digital_output_loop_iter
    rw [if_pos ⟨h1, h2⟩]
    rfl
  · simp [digital_output_loop_run]

/-- Witness for claim C3: the payload `BAD` on the example output is rejected
with a warning and no observable effect. -/
theorem claim_C3_invalid_payload_rejected_witness :
    (∃ m, digital_output_loop_iter "P" ⟨"mod1", exCfg, "BAD"⟩ = [.logWarning m])
    ∧ obsOf (digital_output_loop_iter "P" ⟨"mod1", exCfg, "BAD"⟩) = []
    ∧ hardwareWritesOf (digital_output_loop_iter "P" ⟨"mod1", exCfg, "BAD"⟩) = []
    ∧ publishesOf (digital_output_loop_iter "P" ⟨"mod1", exCfg, "BAD"⟩) = []
    ∧ digital_output_loop_run "P" [⟨"mod1", exCfg, "BAD"⟩]
        = digital_output_loop_iter "P" ⟨"mod1", exCfg, "BAD"⟩
          ++ digital_output_loop_run "P" [] :=
  claim_C3_invalid_payload_rejected "P" ⟨"mod1", exCfg, "BAD"⟩ [] (by decide) (by decide)

/-- Claim C4: a message on an output set-on-ms topic whose payload parses as
a float d schedules a pulse task that drives the output to the on level
(XORed with the inverted flag), publishes the on-payload, sleeps d/1000
seconds, then drives the output to the off level and publishes the
off-payload — exactly two writes and two publishes in that order; the
symmetric sequence holds for set-off-ms. -/
theorem claim_C4_pulse_sequence :
    ∀ (st : ServerState) (nm payload : String) (cfg : DigitalOutputConfig) (d : ℚ),
      nm ≠ "" → '/' ∉ nm.data →
      List.lookup nm st.digital_output_configs = some cfg →
      cfg.module ∈ st.gpio_modules →
      parseFloat? payload = some d →
      (_handle_mqtt_msg st (st.topic_root ++ "/output/" ++ nm ++ "/set_on_ms") payload
        = .ok [] [] [⟨cfg, true, payload⟩])
      ∧ (_handle_mqtt_msg st (st.topic_root ++ "/output/" ++ nm ++ "/set_off_ms") payload
        = .ok [] [] [⟨cfg, false, payload⟩])
      ∧ obsOf (set_ms_run st.topic_root cfg true payload)
          = [.setPin cfg.module cfg.pin (true != cfg.inverted),
             .publish (st.topic_root ++ "/output/" ++ cfg.name) cfg.on_payload 1 cfg.retain,
             .sleep (d / 1000),
             .setPin cfg.module cfg.pin (false != cfg.inverted),
             .publish (st.topic_root ++ "/output/" ++ cfg.name) cfg.off_payload 1 cfg.retain]
      ∧ obsOf (set_ms_run st.topic_root cfg false payload)
          = [.setPin cfg.module cfg.pin (false != cfg.inverted),
             .publish (st.topic_root ++ "/output/" ++ cfg.name) cfg.off_payload 1 cfg.retain,
             .sleep (d / 1000),
             .setPin cfg.module cfg.pin (true != cfg.inverted),
             .publish (st.topic_root ++ "/output/" ++ cfg.name) cfg.on_payload 1 cfg.retain] := by
  intro st nm payload cfg d hne hsl hlk hmod hparse
  have hdn : nm.data ≠ [] := (string_ne_empty_iff_data nm).1 hne
  refine ⟨?_, ?_, ?_, ?_⟩
  · have ea : strEndsWith (st.topic_root ++ "/output/" ++ nm ++ "/set_on_ms")
        ("/" ++ SET_TOPIC) = false := on_not_endsWith_set _
    have eb : strEndsWith (st.topic_root ++ "/output/" ++ nm ++ "/set_on_ms")
        ("/" ++ SET_ON_MS_TOPIC) = true := endsWith_on_self _
    have hp : output_name_from_topic (st.topic_root ++ "/output/" ++ nm ++ "/set_on_ms")
        st.topic_root = .ok nm :=
      output_name_parse_ok st.topic_root nm "/set_on_ms" hdn hsl
        's' ['e', 't', '_', 'o', 'n', '_', 'm', 's'] rfl
    simp [_handle_mqtt_msg, ea, eb, hp, hlk, hmod]
  · have ea : strEndsWith (st.topic_root ++ "/output/" ++ nm ++ "/set_off_ms")
        ("/" ++ SET_TOPIC) = false := off_not_endsWith_set _
    have eb : strEndsWith (st.topic_root ++ "/output/" ++ nm ++ "/set_off_ms")
        ("/" ++ SET_ON_MS_TOPIC) = false := off_not_endsWith_on _
    have ec : strEndsWith (st.topic_root ++ "/output/" ++ nm ++ "/set_off_ms")
        ("/" ++ SET_OFF_MS_TOPIC) = true := endsWith_off_self _
    have hp : output_name_from_topic (st.topic_root ++ "/output/" ++ nm ++ "/set_off_ms")
        st.topic_root = .ok nm :=
      output_name_parse_ok st.topic_root nm "/set_off_ms" hdn hsl
        's' ['e', 't', '_', 'o', 'f', 'f', '_', 'm', 's'] rfl
    simp [_handle_mqtt_msg, ea, eb, ec, hp, hlk, hmod]
  · unfold obsOf set_ms_run
    rw [hparse]
    simp [set_digital_output, isObs]
  · unfold obsOf set_ms_run
    rw [hparse]
    simp [set_digital_output, isObs]

/-- Witness for claim C4 at the example state with payload 1500. -/
theorem claim_C4_pulse_sequence_witness :
    (_handle_mqtt_msg exSt (exSt.topic_root ++ "/output/" ++ "relay1" ++ "/set_on_ms") "1500"
      = .ok [] [] [⟨exCfg, true, "1500"⟩])
    ∧ (_handle_mqtt_msg exSt (exSt.topic_root ++ "/output/" ++ "relay1" ++ "/set_off_ms") "1500"
      = .ok [] [] [⟨exCfg, false, "1500"⟩])
    ∧ obsOf (set_ms_run exSt.topic_root exCfg true "1500")
        = [.setPin exCfg.module exCfg.pin (true != exCfg.inverted),
           .publish (exSt.topic_root ++ "/output/" ++ exCfg.name) exCfg.on_payload 1 exCfg.retain,
           .sleep ((1500 : ℚ) / 1000),
           .setPin exCfg.module exCfg.pin (false != exCfg.inverted),
           .publish (exSt.topic_root ++ "/output/" ++ exCfg.name) exCfg.off_payload 1 exCfg.retain]
    ∧ obsOf (set_ms_run exSt.topic_root exCfg false "1500")
        = [.setPin exCfg.module exCfg.pin (false != exCfg.inverted),
           .publish (exSt.topic_root ++ "/output/" ++ exCfg.name) exCfg.off_payload 1 exCfg.retain,
           .sleep ((1500 : ℚ) / 1000),
           .setPin exCfg.module exCfg.pin (true != exCfg.inverted),
           .publish (exSt.topic_root ++ "/output/" ++ exCfg.name) exCfg.on_payload 1 exCfg.retain] :=
  claim_C4_pulse_sequence exSt "relay1" "1500" exCfg 1500 (by decide) (by decide) (by rfl)
    (by decide) (by decide)

/-- Claim C9: every payload that parses as a float is accepted by the pulse
task, including zero and negative values: both writes and both publishes
happen, the suspension is d/1000 (non-positive when d is), and only payloads
that fail float parsing are rejected. -/
theorem claim_C9_nonpositive_duration_accepted :
    ∀ (tp : String) (cfg : DigitalOutputConfig) (dv : Bool) (payload : String) (d : ℚ),
      parseFloat? payload = some d →
      obsOf (set_ms_run tp cfg dv payload)
        = [.setPin cfg.module cfg.pin (dv != cfg.inverted),
           .publish (tp ++ "/output/" ++ cfg.name)
             (if dv then cfg.on_payload else cfg.off_payload) 1 cfg.retain,
           .sleep (d / 1000),
           .setPin cfg.module cfg.pin (!dv != cfg.inverted),
           .publish (tp ++ "/output/" ++ cfg.name)
             (if dv then cfg.off_payload else cfg.on_payload) 1 cfg.retain]
      ∧ (d ≤ 0 → d / 1000 ≤ 0)
      ∧ (∀ p2 : String, parseFloat? p2 = none →
          ∃ m, set_ms_run tp cfg dv p2 = [.logWarning m]) := by
  intro tp cfg dv payload d hparse
  refine ⟨?_, ?_, ?_⟩
  · unfold obsOf set_ms_run
    rw [hparse]
    simp [set_digital_output, isObs]
  · intro h
    rw [div_eq_mul_inv]
    exact mul_nonpos_iff.mpr (Or.inr ⟨h, by norm_num⟩)
  · intro p2 h2
    exact ⟨"Unable to parse ms value as float from payload " ++ p2,
      by unfold set_ms_run; rw [h2]⟩

/-- Witness for claim C9: the payload -100 is accepted, reverses after a
non-positive suspension, and the unparsable payload abc is rejected. -/
theorem claim_C9_nonpositive_duration_accepted_witness :
    obsOf (set_ms_run "P" exCfg true "-100")
      = [.setPin exCfg.module exCfg.pin (true != exCfg.inverted),
         .publish ("P" ++ "/output/" ++ exCfg.name)
           (if true then exCfg.on_payload else exCfg.off_payload) 1 exCfg.retain,
         .sleep ((-100 : ℚ) / 1000),
         .setPin exCfg.module exCfg.pin (!true != exCfg.inverted),
         .publish ("P" ++ "/output/" ++ exCfg.name)
           (if true then exCfg.off_payload else exCfg.on_payload) 1 exCfg.retain]
    ∧ ((-100 : ℚ) / 1000 ≤ 0)
    ∧ (∃ m, set_ms_run "P" exCfg true "abc" = [.logWarning m]) := by
  have h := claim_C9_nonpositive_duration_accepted "P" exCfg true "-100" (-100) (by decide)
  exact ⟨h.1, h.2.1 (by norm_num), h.2.2 "abc" (by decide)⟩

theorem initq_fold_eq (cfgs : List DigitalOutputConfig) :
    ∀ q : List String,
      (cfgs.foldl (fun st c => if c.module ∈ st.1 then st
          else (st.1 ++ [c.module], st.2 ++ [c.module])) (q, q)).2
      = (cfgs.foldl (fun st c => if c.module ∈ st.1 then st
          else (st.1 ++ [c.module], st.2 ++ [c.module])) (q, q)).1 := by
  induction cfgs with
  | nil => intro q; rfl
  | cons c cs ih =>
    intro q
    rw [List.foldl_cons]
    by_cases h : c.module ∈ q
    · rw [if_pos h]
      exact ih q
    · rw [if_neg h]
      exact ih (q ++ [c.module])

theorem initq_fold_nodup (cfgs : List DigitalOutputConfig) :
    ∀ q w : List String, q.Nodup →
      (cfgs.foldl (fun st c => if c.module ∈ st.1 then st
          else (st.1 ++ [c.module], st.2 ++ [c.module])) (q, w)).1.Nodup := by
  induction cfgs with
  | nil => intro q w hq; exact hq
  | cons c cs ih =>
    intro q w hq
    rw [List.foldl_cons]
    by_cases h : c.module ∈ q
    · rw [if_pos h]
      exact ih q w hq
    · rw [if_neg h]
      refine ih (q ++ [c.module]) (w ++ [c.module]) ?_
      rw [List.nodup_append]
      exact ⟨hq, List.nodup_singleton _, by simpa using h⟩

theorem initq_fold_mem (cfgs : List DigitalOutputConfig) :
    ∀ (q w : List String) (m : String),
      (m ∈ (cfgs.foldl (fun st c => if c.module ∈ st.1 then st
          else (st.1 ++ [c.module], st.2 ++ [c.module])) (q, w)).1
        ↔ m ∈ q ∨ m ∈ cfgs.map fun c => c.module) := by
  induction cfgs with
  | nil => intro q w m; simp
  | cons c cs ih =>
    intro q w m
    rw [List.foldl_cons, List.map_cons]
    by_cases h : c.module ∈ q
    · rw [if_pos h, ih]
      simp only [List.mem_cons]
      constructor
      · rintro (hq | hcs)
        · exact Or.inl hq
        · exact Or.inr (Or.inr hcs)
      · rintro (hq | he | hcs)
        · exact Or.inl hq
        · exact Or.inl (he ▸ h)
        · exact Or.inr hcs
    · rw [if_neg h, ih]
      simp only [List.mem_append, List.mem_singleton, List.mem_cons]
      tauto

/-- Claim C5: for every module referenced by at least one configured output,
exactly one queue and exactly one worker are created (lazily, at the first
output referencing the module): queue owners are exactly the referenced
modules, without duplicates, and worker tasks coincide with queue owners.
Consequently the single worker drains its queue in enqueue order, one command
at a time: the trace of the first n commands is a prefix of the full trace,
and each command completes before the next begins. -/
theorem claim_C5_one_queue_one_worker :
    ∀ (cfgs : List DigitalOutputConfig),
      ((_init_digital_outputs cfgs).worker_tasks
        = (_init_digital_outputs cfgs).module_output_queues)
      ∧ (_init_digital_outputs cfgs).module_output_queues.Nodup
      ∧ (∀ m, m ∈ (_init_digital_outputs cfgs).module_output_queues
            ↔ m ∈ cfgs.map fun c => c.module)
      ∧ (∀ (tp : String) (cmds : List OutputCommand) (n : ℕ),
          digital_output_loop_run tp (cmds.take n) <+: digital_output_loop_run tp cmds)
      ∧ (∀ (tp : String) (c : OutputCommand) (cs : List OutputCommand),
          digital_output_loop_run tp (c :: cs)
            = digital_output_loop_iter tp c ++ digital_output_loop_run tp cs) := by
  intro cfgs
  refine ⟨?_, ?_, ?_, ?_, ?_⟩
  · exact initq_fold_eq cfgs []
  · exact initq_fold_nodup cfgs [] [] List.nodup_nil
  · intro m
    simpa using initq_fold_mem cfgs [] [] m
  · intro tp cmds n
    refine ⟨digital_output_loop_run tp (cmds.drop n), ?_⟩
    unfold digital_output_loop_run
    rw [← List.flatten_append, ← List.map_append, List.take_append_drop]
  · intro tp c cs
    simp [digital_output_loop_run]

/-- Witness for claim C5: two outputs on the same module share one queue and
one worker; a third output on another module gets its own. -/
theorem claim_C5_one_queue_one_worker_witness :
    ((_init_digital_outputs [exCfg, { exCfg with name := "relay2", pin := 6 },
        { exCfg with name := "relay3", module := "mod2" }]).module_output_queues
      = ["mod1", "mod2"])
    ∧ ((_init_digital_outputs [exCfg, { exCfg with name := "relay2", pin := 6 },
        { exCfg with name := "relay3", module := "mod2" }]).worker_tasks
      = ["mod1", "mod2"])
    ∧ ("mod1" ∈ (_init_digital_outputs [exCfg, { exCfg with name := "relay2", pin := 6 },
        { exCfg with name := "relay3", module := "mod2" }]).module_output_queues
        ↔ "mod1" ∈ ([exCfg, { exCfg with name := "relay2", pin := 6 },
            { exCfg with name := "relay3", module := "mod2" }].map fun c => c.module)) :=
  ⟨by decide, by decide,
   (claim_C5_one_queue_one_worker [exCfg, { exCfg with name := "relay2", pin := 6 },
      { exCfg with name := "relay3", module := "mod2" }]).2.2.1 "mod1"⟩

theorem excLogs_flatten (l : List TrackedTask) :
    exceptionLogsOf ((l.map reap_finished).flatten)
      = (l.filter fun t => t.err.isSome).map fun t => "Exception in task: " ++ t.name := by
  induction l with
  | nil => rfl
  | cons t ts ih =>
    rw [List.map_cons, List.flatten_cons]
    unfold exceptionLogsOf
    rw [List.filterMap_append]
    unfold exceptionLogsOf at ih
    cases he : t.err with
    | some e => simp [reap_finished, await_task, he, ih, List.filter_cons]
    | none => simp [reap_finished, await_task, he, ih, List.filter_cons]

theorem filter_done_err (ts : List TrackedTask) :
    (ts.filter fun t => t.done).filter (fun t => t.err.isSome)
      = ts.filter fun t => t.done && t.err.isSome := by
  induction ts with
  | nil => rfl
  | cons t ts ih =>
    cases hd : t.done <;> cases he : t.err <;> simp [List.filter_cons, hd, he, ih]

/-- Claim C8: on every pass of the periodic reaper, every finished task is
removed from the tracked list; a task finished with an exception has the
exception caught and logged, a cleanly finished one is discarded silently;
and the pass always returns normally so the loop continues to the next
pass regardless of task errors. -/
theorem claim_C8_reaper_removes_finished :
    ∀ (ts : List TrackedTask),
      ((_remove_finished_tasks_pass ts).2 = ts.filter fun t => !t.done)
      ∧ (exceptionLogsOf (_remove_finished_tasks_pass ts).1
          = (ts.filter fun t => t.done && t.err.isSome).map
              fun t => "Exception in task: " ++ t.name)
      ∧ (∀ (nme : String) (d : Bool) (e : String),
          reap_finished ⟨nme, d, some e⟩
            = [.logException ("Exception in task: " ++ nme)])
      ∧ (∀ (nme : String) (d : Bool), reap_finished ⟨nme, d, none⟩ = [])
      ∧ (∀ n, (_remove_finished_tasks_run (n + 1) ts).1
          = (_remove_finished_tasks_pass ts).1
            ++ (_remove_finished_tasks_run n (_remove_finished_tasks_pass ts).2).1) := by
  intro ts
  by_cases h : (ts.filter fun t => t.done).isEmpty
  · have hnil : ts.filter (fun t => t.done) = [] := by
      rwa [List.isEmpty_iff] at h
    have hnone : ∀ t ∈ ts, t.done = false := by
      intro t ht
      have := List.filter_eq_nil_iff.1 hnil t ht
      simpa using this
    have hself : ts.filter (fun t => !t.done) = ts :=
      List.filter_eq_self.2 fun t ht => by simp [hnone t ht]
    refine ⟨?_, ?_, ?_, ?_, ?_⟩
    · unfold _remove_finished_tasks_pass
      rw [if_pos h]
      exact hself.symm
    · unfold _remove_finished_tasks_pass
      rw [if_pos h]
      have : ts.filter (fun t => t.done && t.err.isSome) = [] := by
        rw [List.filter_eq_nil_iff]
        intro t ht
        simp [hnone t ht]
      rw [this]
      rfl
    · intro nme d e; rfl
    · intro nme d; rfl
    · intro n; simp [_remove_finished_tasks_run]
  · refine ⟨?_, ?_, ?_, ?_, ?_⟩
    · unfold _remove_finished_tasks_pass
      rw [if_neg h]
    · unfold _remove_finished_tasks_pass
      rw [if_neg h]
      show exceptionLogsOf (.sleep 1 :: ((ts.filter fun t => t.done).map reap_finished).flatten) = _
      unfold exceptionLogsOf
      rw [List.filterMap_cons]
      simp only []
      have := excLogs_flatten (ts.filter fun t => t.done)
      unfold exceptionLogsOf at this
      rw [this, filter_done_err]
    · intro nme d e; rfl
    · intro nme d; rfl
    · intro n; simp [_remove_finished_tasks_run]

/-- Witness for claim C8 (the theorem itself is hypothesis-free; this
exercises it on a concrete task list with one failed, one clean and one
pending task). -/
theorem claim_C8_reaper_removes_finished_witness :
    ((_remove_finished_tasks_pass
        [⟨"a", true, some "boom"⟩, ⟨"b", true, none⟩, ⟨"c", false, none⟩]).2
      = [⟨"c", false, none⟩])
    ∧ (exceptionLogsOf (_remove_finished_tasks_pass
        [⟨"a", true, some "boom"⟩, ⟨"b", true, none⟩, ⟨"c", false, none⟩]).1
      = ["Exception in task: a"]) := by
  have h := claim_C8_reaper_removes_finished
    [⟨"a", true, some "boom"⟩, ⟨"b", true, none⟩, ⟨"c", false, none⟩]
  exact ⟨by rw [h.1]; rfl, by rw [h.2.1]; rfl⟩

/-- Claim C10: a sensor poll iteration whose module read yields no reading
fires no sensor-read event and hence produces no outbound publish; the
poller still sleeps for the configured interval and continues with the next
iteration. -/
theorem claim_C10_sensor_no_reading :
    ∀ (tp : String) (sens_conf : SensorInputConfig) (rest : List (Option ℚ)),
      poll_sensor_iter sens_conf none = [.sleep sens_conf.interval]
      ∧ firesOf (poll_sensor_iter sens_conf none) = []
      ∧ poll_sensor_iter_bus tp sens_conf none = [.sleep sens_conf.interval]
      ∧ publishesOf (poll_sensor_iter_bus tp sens_conf none) = []
      ∧ poll_sensor_run sens_conf (none :: rest)
          = .sleep sens_conf.interval :: poll_sensor_run sens_conf rest := by
  intro tp sens_conf rest
  exact ⟨rfl, rfl, rfl, rfl, rfl⟩

/-- Claim C7: after a termination signal the shutdown proceeds in order: the
two primary tasks (receive loop, reaper) are cancelled and awaited first,
during which the receive-loop finaliser publishes the retained stopped status
payload and then disconnects; only then are the remaining pending tracked
tasks cancelled and awaited, and the scheduler stop comes after every one of
them has finished, leaving no task pending. -/
theorem claim_C7_shutdown_order :
    ∀ (tp statusTopic stoppedPayload sig : String) (others : List STask),
      ((shutdown_run sig (primary_tasks tp statusTopic stoppedPayload) others).1
        = [.logWarning ("Received exit signal " ++ sig),
           .cancelTask "_mqtt_rx_loop", .cancelTask "_remove_finished_tasks",
           .logInfo "Waiting for main task to complete...",
           .publish (tp ++ "/" ++ statusTopic) stoppedPayload 1 true,
           .logInfo "Disconnecting from MQTT...", .disconnect, .logInfo "MQTT disconnected",
           .logInfo ("Cancelling " ++ toString (others.filter fun t => !t.done).length
             ++ " remaining tasks")]
          ++ (others.filter fun t => !t.done).map (fun t => Effect.cancelTask t.name)
          ++ [.logInfo ("Waiting for " ++ toString (others.filter fun t => !t.done).length
               ++ " remaining tasks to complete...")]
          ++ ((others.filter fun t => !t.done).map cancel_effects).flatten
          ++ [.logDebug "Tasks all finished. Stopping loop...", .stopLoop,
              .logDebug "Loop stopped"])
      ∧ ((shutdown_run sig (primary_tasks tp statusTopic stoppedPayload) others).2.all
          fun t => t.done) = true := by
  intro tp statusTopic stoppedPayload sig others
  constructor
  · simp [shutdown_run, primary_tasks, cancel_effects, mqtt_rx_loop_finalizer]
  · simp [shutdown_run, List.all_eq_true]
